import Mathlib

/-!
Verification of the HDF5 read-only catalog-and-decoder kernel
(`tensorflow_io/core/kernels/hdf5_kernels.cc`).

The development shallowly embeds the kernel's data model and operations:
storage-type classification performed by `HDF5ReadableResource::Init`, the
cycle-guarded object-graph walk of `HDF5Iterate::Iterate`, the bounds
validation and string decoding of `HDF5ReadableResource::Read`, the
exception translation wrapping `Read`, and the request normalization of
`HDF5ReadableReadOp::ResourceKernel`.
-/

namespace HDF5

/-- Canonical target value types (the `::tensorflow::DataType` values the
kernel can produce). -/
inductive TfType
  | dtUint8 | dtUint16 | dtUint32 | dtUint64
  | dtInt8 | dtInt16 | dtInt32 | dtInt64
  | dtFloat | dtDouble | dtComplex64 | dtComplex128
  | dtBool | dtString
deriving DecidableEq, Repr

/-- Storage classes returned by `H5::DataType::getClass`; every class the
switch in `Init` does not handle explicitly is collapsed into `other`
carrying the raw class tag. -/
inductive H5Class
  | integer | float | h5str | vlen | compound | enum | other (tag : Nat)
deriving DecidableEq, Repr

/-- Fixed-length string padding modes (`H5T_STR_NULLTERM`, `H5T_STR_NULLPAD`,
`H5T_STR_SPACEPAD`). -/
inductive StrPad
  | nullterm | nullpad | spacepad
deriving DecidableEq, Repr

/-- Numeric code of a padding mode, as printed by the unsupported-padding
error message. -/
def StrPad.code : StrPad → Nat
  | .nullterm => 0
  | .nullpad => 1
  | .spacepad => 2

/-- On-disk storage type descriptors, as observed through the `H5::DataType`
accessors the kernel calls: integer size and sign, float size, string
encoding, compound member list, enumeration size and member list, and a
catch-all for every other storage class. -/
inductive H5T
  | intType (size : Nat) (signed : Bool)
  | floatType (size : Nat)
  | strType (variableStr : Bool) (pad : StrPad) (size : Nat)
  | vlenType (size : Nat)
  | compType (members : List (String × H5T))
  | enumType (size : Nat) (members : List (String × Int))
  | otherType (tag : Nat)
deriving Repr

mutual

/-- Structural equality test on storage descriptors, modelling
`H5::DataType::operator==` (`H5Tequal`). -/
def H5T.beq : H5T → H5T → Bool
  | .intType a b, .intType c d => a == c && b == d
  | .floatType a, .floatType b => a == b
  | .strType a b c, .strType d e f => a == d && b == e && c == f
  | .vlenType a, .vlenType b => a == b
  | .compType ms, .compType ns => H5T.beqMembers ms ns
  | .enumType a ms, .enumType b ns => a == b && ms == ns
  | .otherType a, .otherType b => a == b
  | _, _ => false

/-- Member-list equality used by `H5T.beq` on compounds. -/
def H5T.beqMembers : List (String × H5T) → List (String × H5T) → Bool
  | [], [] => true
  | (n, t) :: r, (m, u) :: s => n == m && H5T.beq t u && H5T.beqMembers r s
  | _, _ => false

end

/-- Lawfulness of `H5T.beq` with respect to propositional equality, needed
to decide the `data_type` comparisons of the source. -/
def H5T.beq_spec :
    (∀ a b : H5T, (H5T.beq a b = true ↔ a = b)) ∧
    (∀ ms ns : List (String × H5T), (H5T.beqMembers ms ns = true ↔ ms = ns)) := by
  refine H5T.beq.mutual_induct
    (fun a b => H5T.beq a b = true ↔ a = b)
    (fun ms ns => H5T.beqMembers ms ns = true ↔ ms = ns)
    ?_ ?_ ?_ ?_ ?_ ?_ ?_ ?_ ?_ ?_ ?_
  · intro a b c d; simp [H5T.beq]
  · intro a b; simp [H5T.beq]
  · intro a b c d e f; simp [H5T.beq, and_assoc]
  · intro a b; simp [H5T.beq]
  · intro ms ns ih; simp [H5T.beq, ih]
  · intro a ms b ns; simp [H5T.beq]
  · intro a b; simp [H5T.beq]
  · intro t x h1 h2 h3 h4 h5 h6 h7
    cases t <;> cases x <;>
      first
        | exact (h5 _ _ rfl rfl).elim
        | simp [H5T.beq, and_assoc]
  · simp [H5T.beqMembers]
  · intro n t r m u s ih1 ih2
    simp [H5T.beqMembers, ih1, ih2, and_assoc]
  · intro t x h1 h2
    cases t <;> cases x <;>
      first
        | exact (h2 _ _ _ _ _ _ rfl rfl).elim
        | simp [H5T.beqMembers]

instance : DecidableEq H5T := fun a b => decidable_of_iff _ (H5T.beq_spec.1 a b)

/-- Model of `H5::DataType::getClass`. -/
def H5T.getClass : H5T → H5Class
  | .intType _ _ => .integer
  | .floatType _ => .float
  | .strType _ _ _ => .h5str
  | .vlenType _ => .vlen
  | .compType _ => .compound
  | .enumType _ _ => .enum
  | .otherType tag => .other tag

/-- Model of `H5::DataType::getSize` for the type forms the kernel actually
queries a size on (integers, floats, strings, vlen, enums).  The compound
branch of `Init` never asks a compound for its own size, so that arm is not
consulted by any modelled code path. -/
def H5T.getSize : H5T → Nat
  | .intType s _ => s
  | .floatType s => s
  | .strType _ _ s => s
  | .vlenType s => s
  | .compType _ => 0
  | .enumType s _ => s
  | .otherType _ => 0

/-- Errors produced by `HDF5ReadableResource::Init`, one constructor per
`errors::InvalidArgument` site in the classification switch, carrying the
same payloads the messages are built from. -/
inductive InitError
  | openFailure (filename : String)
  | unsupportedIntSize (dataset : String) (size : Nat)
  | unsupportedFloatSize (dataset : String) (size : Nat)
  | unsupportedCompoundMembers (dataset : String) (n : Nat)
  | unsupportedCompoundMemberNames (dataset : String) (n0 n1 : String)
  | unsupportedCompoundDifferentType (dataset : String) (c0 c1 : H5Class)
  | unsupportedCompoundNonFloat (dataset : String) (c : H5Class)
  | unsupportedCompoundSize (dataset : String) (size : Nat)
  | unsupportedEnum (dataset : String) (names : List String)
  | unsupportedClass (dataset : String) (c : H5Class)
deriving DecidableEq, Repr

/-- Result of the two `try` blocks probing an enumeration: `getMemberIndex`
throws when the name is absent, in which case the corresponding local keeps
its initial value 0; the first throw aborts the rest of the block. -/
def enumIndexPair (members : List (String × Int)) : Nat × Nat :=
  match members.findIdx? (fun m => m.1 == "FALSE"),
        members.findIdx? (fun m => m.1 == "TRUE") with
  | none, _ => (0, 0)
  | some iF, none => (iF, 0)
  | some iF, some iT => (iF, iT)

/-- Model of the enumeration check shared by `Init` and the `DT_BOOL` branch
of `Read`: size must be 1 byte (equal to `DataTypeSize(DT_BOOL)`), exactly
2 members, member named FALSE at index 0, TRUE at index 1, with stored
values 0 and 1. -/
def enumBoolCheck (size : Nat) (members : List (String × Int)) : Bool :=
  size == 1 && members.length == 2 &&
    (let ip := enumIndexPair members
     ip.1 == 0 && ip.2 == 1 &&
       ((members.getD 0 ("", 0)).2 == 0 && (members.getD 1 ("", 0)).2 == 1))

/-- Storage-type classification performed by the switch in
`HDF5ReadableResource::Init` (lines 153-296 of the source): maps a storage
descriptor to a canonical type or fails.  `cn` is the configured compound
member-name pair `complex_names_` (default `("r", "i")`). -/
def classify (cn : String × String) (dataset : String) : H5T → Except InitError TfType
  | .intType size signed =>
    match size with
    | 1 => .ok (if signed then .dtInt8 else .dtUint8)
    | 2 => .ok (if signed then .dtInt16 else .dtUint16)
    | 4 => .ok (if signed then .dtInt32 else .dtUint32)
    | 8 => .ok (if signed then .dtInt64 else .dtUint64)
    | _ => .error (.unsupportedIntSize dataset size)
  | .floatType size =>
    match size with
    | 4 => .ok .dtFloat
    | 8 => .ok .dtDouble
    | _ => .error (.unsupportedFloatSize dataset size)
  | .strType _ _ _ => .ok .dtString
  | .vlenType _ => .ok .dtString
  | .compType members =>
    match members with
    | [(n0, t0), (n1, t1)] =>
      if n0 ≠ cn.1 ∨ n1 ≠ cn.2 then
        .error (.unsupportedCompoundMemberNames dataset n0 n1)
      else if t0 ≠ t1 then
        .error (.unsupportedCompoundDifferentType dataset t0.getClass t1.getClass)
      else if t0.getClass ≠ .float then
        .error (.unsupportedCompoundNonFloat dataset t0.getClass)
      else
        match t0.getSize with
        | 4 => .ok .dtComplex64
        | 8 => .ok .dtComplex128
        | s => .error (.unsupportedCompoundSize dataset s)
    | ms => .error (.unsupportedCompoundMembers dataset ms.length)
  | .enumType size members =>
    if enumBoolCheck size members then .ok .dtBool
    else .error (.unsupportedEnum dataset (members.map Prod.fst))
  | .otherType tag => .error (.unsupportedClass dataset (H5Class.other tag))

/-! Bounds validation of `HDF5ReadableResource::Read` (lines 362-388). -/

/-- Errors produced inside `HDF5ReadableResource::Read`, one constructor per
error site, carrying the payloads the messages are built from. -/
inductive ReadError
  | notFound (component : String)
  | rankMismatch (datasetRank reqRank : Nat)
  | outOfBounds (dim : Nat) (start : Int) (slice : Int) (boundary : Nat)
  | stringPadUnsupported (padCode : Nat)
  | stringClassUnsupported (tag : Nat)
  | boolClassUnsupported (tag : Nat)
  | typeClassUnsupported (tag : Nat)
deriving DecidableEq, Repr

/-- Conversion of a signed 64-bit value to the unsigned `hsize_t` it is
compared against: C++ converts the `int64` operand to `uint64` (reduction
modulo 2^64) before the comparison. -/
def hsizeCast (x : Int) : Nat := (x % (2 : Int) ^ 64).toNat

/-- Per-dimension loop of `Read` (lines 374-382): on the first dimension `i`
where `start[i] > dims[i]` or `start[i] + shape.dim_size(i) > dims[i]` (both
comparisons performed after conversion to `hsize_t`), fail with the
out-of-boundary error; otherwise collect the hyperslab `(offset, count)`
pair for that dimension. -/
def hyperslabLoop : Nat → List Nat → List Int → List Int → Except ReadError (List (Nat × Int))
  | _, [], _, _ => .ok []
  | i, d :: ds, st :: sts, sz :: szs =>
    if hsizeCast st > d ∨ hsizeCast (st + sz) > d then
      .error (.outOfBounds i st sz d)
    else
      match hyperslabLoop (i + 1) ds sts szs with
      | .error e => .error e
      | .ok r => .ok ((hsizeCast st, sz) :: r)
  | _, _ :: _, _, _ => .ok []

/-- Selection step of `Read`: a rank-0 requested shape leaves
`memory_space = H5S_ALL` and applies no hyperslab (full read, `none`);
otherwise the dataset rank must equal the requested rank, and the
per-dimension bounds are validated to build the selection. -/
def readSelect (datasetDims : List Nat) (start : List Int) (reqShape : List Int) :
    Except ReadError (Option (List (Nat × Int))) :=
  if reqShape.length = 0 then .ok none
  else if datasetDims.length ≠ reqShape.length then
    .error (.rankMismatch datasetDims.length reqShape.length)
  else
    match hyperslabLoop 0 datasetDims start reqShape with
    | .error e => .error e
    | .ok sel => .ok (some sel)

/-! String decoding of `HDF5ReadableResource::Read` (lines 439-503).
Bytes are modelled as natural numbers; an element of a fixed-length string
dataset is the `size`-byte slice of the raw read buffer. -/

/-- Length counted by the `H5T_STR_NULLTERM` loop (lines 464-467): advance
while the current byte is nonzero; the `len < size` guard of the source is
the end of the field list here. -/
def nulltermLen : List Nat → Nat
  | [] => 0
  | b :: r => if b = 0 then 0 else nulltermLen r + 1

/-- Decode of one null-terminated fixed-length field: the first
`nulltermLen` bytes of the field. -/
def strFieldNullTerm (p : List Nat) : List Nat := p.take (nulltermLen p)

/-- Helper for the `H5T_STR_NULLPAD` loop: the source walks `len` down from
`size` while `p[len - 1] = 0`; on the reversed field this drops the leading
zeros. -/
def dropLeadZeros : List Nat → List Nat
  | [] => []
  | b :: r => if b = 0 then dropLeadZeros r else b :: r

/-- Decode of one null-padded fixed-length field (lines 472-479): the field
with its maximal all-zero suffix removed. -/
def strFieldNullPad (p : List Nat) : List Nat := (dropLeadZeros p.reverse).reverse

/-- The `i`-th `size`-byte field of the raw buffer read for a fixed-length
string dataset. -/
def strSlice (size : Nat) (buffer : List Nat) (i : Nat) : List Nat :=
  (buffer.drop (size * i)).take size

/-- Fixed-length string decode, dispatching on the padding mode
(lines 459-486): null-terminated and null-padded fields are decoded
per element; space padding fails with an error naming the padding mode
(`H5T_STR_SPACEPAD` prints as 2). -/
def readFixedStrings (pad : StrPad) (size : Nat) (buffer : List Nat) (total : Nat) :
    Except ReadError (List (List Nat)) :=
  match pad with
  | .nullterm => .ok ((List.range total).map fun i => strFieldNullTerm (strSlice size buffer i))
  | .nullpad => .ok ((List.range total).map fun i => strFieldNullPad (strSlice size buffer i))
  | .spacepad => .error (.stringPadUnsupported StrPad.spacepad.code)

/-- Decode of one element of a variable-length string (`H5T_STRING` with
`isVariableStr`) dataset, lines 447-450: the buffer holds one `char*` per
element and the copy is `string(p)`, which reads from the pointer up to the
first zero byte.  Process memory is modelled as a byte list indexed by
address. -/
def varStrElem (mem : List Nat) (ptr : Nat) : List Nat :=
  (mem.drop ptr).takeWhile (fun b => b != 0)

/-- Decode of one element of an `H5T_VLEN` dataset, lines 493-496: the
buffer holds one `hvl_t` record `(pointer, length)` per element and the
copy is `string(p, len)`, exactly `len` bytes from the pointer. -/
def vlenElem (mem : List Nat) (r : Nat × Nat) : List Nat :=
  (mem.drop r.1).take r.2

/-- Variable-length string dataset decode: one `string(p)` copy per element
pointer. -/
def readVarStrings (mem : List Nat) (ptrs : List Nat) : List (List Nat) :=
  ptrs.map (varStrElem mem)

/-- `H5T_VLEN` dataset decode: one `string(p, len)` copy per record. -/
def readVlenStrings (mem : List Nat) (records : List (Nat × Nat)) : List (List Nat) :=
  records.map (vlenElem mem)

/-! Object-graph walk of `HDF5Iterate` (lines 78-117).  Objects are
identified by their container-assigned address (`haddr_t`), modelled as a
natural number below `numAddr`; each object has a type tag and, for groups,
an ordered list of child links. -/

/-- Object types distinguished by the `switch` on `H5Oget_info_by_name`
results. -/
inductive H5OType
  | group | dataset | namedDatatype | other
deriving DecidableEq, Repr

/-- An object graph: address bound, per-address object type, and
per-address child links in the container's native order.  Links resolve to
addresses inside the graph. -/
structure H5Graph where
  numAddr : Nat
  otype : Nat → H5OType
  links : Nat → List (String × Nat)
  links_lt : ∀ a p, p ∈ links a → p.2 < numAddr

/-- Walk state of `HDF5Iterate`: the `datasets_` output list, the `groups_`
map from visited group address to path (association list in insertion
order), and the `parent_` cursor. -/
structure WalkState where
  datasets : List String
  groups : List (Nat × String)
  parent : Nat
deriving DecidableEq, Repr

/-- Lookup in the `groups_` map. -/
def groupsFind (gs : List (Nat × String)) (a : Nat) : Option String :=
  (gs.find? (fun e => e.1 == a)).map Prod.snd

/-- One callback invocation of `HDF5Iterate::Iterate` on the link
`(name, addr)`: a group not yet in `groups_` is recorded under
`parent_path + "/" + name`, the parent cursor moves to it, its children are
iterated (through `descend`, the model of the recursive
`H5Literate_by_name` call), and the cursor is restored; an already-seen
group is skipped; a dataset appends `parent_path + "/" + name` to the
output; named datatypes and anything else are ignored. -/
def iterLink (g : H5Graph) (descend : List (String × Nat) → WalkState → WalkState)
    (name : String) (addr : Nat) (s : WalkState) : WalkState :=
  match g.otype addr with
  | .group =>
    if (groupsFind s.groups addr).isSome then s
    else
      let path := (groupsFind s.groups s.parent).getD "" ++ "/" ++ name
      let s2 := descend (g.links addr)
        { s with groups := s.groups ++ [(addr, path)], parent := addr }
      { s2 with parent := s.parent }
  | .dataset =>
    { s with
        datasets := s.datasets ++ [(groupsFind s.groups s.parent).getD "" ++ "/" ++ name] }
  | _ => s

/-- Iteration over a link list (the model of one `H5Literate_by_name`
call): apply the callback to each link in order, threading the state. -/
def iterList (g : H5Graph) (descend : List (String × Nat) → WalkState → WalkState) :
    List (String × Nat) → WalkState → WalkState
  | [], s => s
  | (name, addr) :: rest, s => iterList g descend rest (iterLink g descend name addr s)

/-- The walk at bounded nesting depth: at depth `fuel + 1` a fresh group's
children are iterated at depth `fuel`; at depth 0 a fresh group is recorded
but its children are not entered.  The source recursion carries no bound;
its depth is bounded by the number of distinct addresses because each
nested entry requires an address not yet in `groups_`, which the stability
theorem below makes precise. -/
def iterFuel (g : H5Graph) : Nat → List (String × Nat) → WalkState → WalkState
  | 0 => iterList g (fun _ s => s)
  | fuel + 1 => iterList g (iterFuel g fuel)

/-- The whole walk from the file's root object (lines 136-140 of `Init`
plus the `HDF5Iterate` constructor): `groups_` seeded with
`root ↦ ""`, cursor at the root, iterating the root's links. -/
def walk (g : H5Graph) (root : Nat) (fuel : Nat) : WalkState :=
  iterFuel g fuel (g.links root) ⟨[], [(root, "")], root⟩

/-- Invariant on walk states: the recorded group addresses are pairwise
distinct and in range. -/
def GoodState (g : H5Graph) (s : WalkState) : Prop :=
  (s.groups.map Prod.fst).Nodup ∧ ∀ e ∈ s.groups, e.1 < g.numAddr

/-- Links resolving inside the graph. -/
def LinksLt (g : H5Graph) (l : List (String × Nat)) : Prop :=
  ∀ p ∈ l, p.2 < g.numAddr

/-! Exception translation of `HDF5ReadableResource::Read` (lines 357,
568-574). -/

/-- Exception types of the container library that the code in this file can
encounter (the source itself catches `H5::DataTypeIException` in its enum
probing, and the dataspace calls of `Read` raise
`H5::DataSpaceIException`). -/
inductive H5Exception
  | fileIException (msg : String)
  | dataSetIException (msg : String)
  | dataSpaceIException (msg : String)
  | dataTypeIException (msg : String)
deriving DecidableEq, Repr

/-- Outcome of a `Read` call as seen by the caller: a normal return
(success or `Status` error), or a native exception escaping the function. -/
inductive ReadOutcome
  | ok
  | status (msg : String)
  | thrown (e : H5Exception)
deriving DecidableEq, Repr

/-- The `try`/`catch` structure wrapping the body of `Read`: only
`H5::FileIException` and `H5::DataSetIException` have catch clauses, each
translated to `errors::InvalidArgument` built from the stored file name
`filename_` and the exception's detail message; any other exception type
has no handler and propagates. -/
def readCatch (filename : String) (body : Except H5Exception Unit) : ReadOutcome :=
  match body with
  | .ok _ => .ok
  | .error (.fileIException m) =>
    .status ("unable to open dataset file " ++ filename ++ ": " ++ m)
  | .error (.dataSetIException m) =>
    .status ("unable to process dataset file" ++ filename ++ ": " ++ m)
  | .error e => .thrown e

/-! Request normalization of `HDF5ReadableReadOp::ResourceKernel`
(lines 661-710). -/

/-- Values held by the local `start` vector after the two fill loops
(lines 673-679): element `i` is the `i`-th element of the start input
tensor, or 0 past its end.  The vector is allocated with length
`shape.dims()`. -/
def buildStart (rank : Nat) (startElems : List Int) : List Int :=
  (List.range rank).map fun i => startElems.getD i 0

/-- Values held by the `stop` vector positions after the two fill loops
(lines 683-689): element `i` is the `i`-th element of the stop input
tensor, or the requested shape's dimension `i` past its end.  (The
mis-sizing of the vector itself is treated separately by the access-bounds
analysis below.) -/
def buildStop (rank : Nat) (stopElems : List Int) (shapeDims : List Int) : List Int :=
  (List.range rank).map fun i =>
    if i < stopElems.length then stopElems.getD i 0 else shapeDims.getD i 0

/-- Normalization loops of `ResourceKernel` (lines 691-701): per dimension,
snap `stop[i]` to `shape.dim_size(i)` when it is negative or exceeds it,
then pull `start[i]` down to `stop[i]` when it exceeds it, and set the
output dimension to `stop[i] - start[i]`.  Returns the adjusted start
vector, the adjusted stop vector, and the output shape. -/
def readOpNormalize : List Int → List Int → List Int → List Int × List Int × List Int
  | d :: ds, a :: rest, o :: os =>
    let o2 := if o < 0 ∨ o > d then d else o
    let a2 := if a > o2 then o2 else a
    let r := readOpNormalize ds rest os
    (a2 :: r.1, o2 :: r.2.1, (o2 - a2) :: r.2.2)
  | _, _, _ => ([], [], [])

/-- End-to-end request normalization of the read op: build the start and
stop vectors from the input tensors, normalize them against the requested
shape, and return the start vector and output shape passed on to
`HDF5ReadableResource::Read` and the allocation callback. -/
def readOpRequest (shapeDims startElems stopElems : List Int) : List Int × List Int :=
  let rank := shapeDims.length
  let n := readOpNormalize shapeDims (buildStart rank startElems) (buildStop rank stopElems shapeDims)
  (n.1, n.2.2)

/-! Index-access bounds of `ResourceKernel` (claim C10).  The local `start`
vector is allocated with length `shape.dims()` (line 673); the local `stop`
vector is allocated with length `stop_tensor->shape().dims()` — the stop
input tensor's rank (line 683). -/

/-- Inputs of one `ResourceKernel` invocation: the contents of the shape
input tensor (its length is the requested rank), the flat contents of the
start and stop input tensors, and the stop input tensor's rank. -/
structure ReadOpInputs where
  shapeDims : List Int
  startElems : List Int
  stopElems : List Int
  stopTensorRank : Nat
deriving DecidableEq, Repr

/-- Indices at which the `start` vector is read or written: the fill loop
over the start tensor's elements, the 0-padding loop, the normalization
loop, and the output-shape loop (each of the last two runs over
`shape.dims()`). -/
def startAccesses (inp : ReadOpInputs) : List Nat :=
  let rank := inp.shapeDims.length
  List.range inp.startElems.length ++
    List.range' inp.startElems.length (rank - inp.startElems.length) ++
    List.range rank ++ List.range rank

/-- Indices at which the `stop` vector is read or written: the fill loop
over the stop tensor's elements, the shape-padding loop, the normalization
loop, and the output-shape loop. -/
def stopAccesses (inp : ReadOpInputs) : List Nat :=
  let rank := inp.shapeDims.length
  List.range inp.stopElems.length ++
    List.range' inp.stopElems.length (rank - inp.stopElems.length) ++
    List.range rank ++ List.range rank

/-- All vector accesses of `ResourceKernel` stay within the allocated
lengths: `start` accesses below `shape.dims()` and `stop` accesses below
the stop tensor's rank. -/
def readOpAccessesInBounds (inp : ReadOpInputs) : Prop :=
  (∀ i ∈ startAccesses inp, i < inp.shapeDims.length) ∧
    (∀ i ∈ stopAccesses inp, i < inp.stopTensorRank)

instance (inp : ReadOpInputs) : Decidable (readOpAccessesInBounds inp) := by
  unfold readOpAccessesInBounds; infer_instance

/-! Catalog construction of `HDF5ReadableResource::Init` (lines 125-312)
and the metadata queries `Components` and `Spec`. -/

/-- What `Init` observes of the container: whether the file opened, the
status returned by `H5Literate` for the walk (line 139, assigned to `err`),
and the discovered datasets in walk order, each with its declared dimension
sizes and storage type. -/
structure FileDesc where
  filename : String
  openOk : Bool
  walkOk : Bool
  datasets : List (String × List Nat × H5T)
deriving Repr

/-- Mutable state of the resource relevant to the catalog: the parallel
`dtypes_` and `shapes_` vectors and the `columns_index_` map (modelled as
an association list in insertion order). -/
structure ResState where
  dtypes : List TfType
  shapes : List (List Nat)
  index : List (String × Nat)
deriving DecidableEq, Repr

/-- A fresh resource: all catalog containers empty. -/
def emptyRes : ResState := ⟨[], [], []⟩

/-- Classification loop of `Init` (lines 142-304): classify each discovered
dataset in order, appending to `dtypes_` and `shapes_`; the first
classification failure returns immediately with that error. -/
def initLoop (cn : String × String) :
    List (String × List Nat × H5T) → ResState → ResState × Option InitError
  | [], s => (s, none)
  | (path, dims, t) :: rest, s =>
    match classify cn path t with
    | .error e => (s, some e)
    | .ok dt =>
      initLoop cn rest { s with dtypes := s.dtypes ++ [dt], shapes := s.shapes ++ [dims] }

/-- Model of `HDF5ReadableResource::Init`: fail if the file did not open;
run the walk (its returned status is captured into `err` and never
consulted); classify every discovered dataset, aborting on the first
failure; only after every dataset classified successfully is
`columns_index_` populated (lines 306-309). -/
def runInit (cn : String × String) (f : FileDesc) : ResState × Option InitError :=
  if f.openOk = false then (emptyRes, some (.openFailure f.filename))
  else
    match initLoop cn f.datasets emptyRes with
    | (s, some e) => (s, some e)
    | (s, none) =>
      ({ s with
          index := List.zip (f.datasets.map fun d => d.1) (List.range f.datasets.length) },
        none)

/-- Model of `HDF5ReadableResource::Spec` (lines 325-337): look the
component up in `columns_index_`; a missing path is `InvalidArgument`
(`NotFound`), otherwise return the recorded shape and type of its slot. -/
def specQuery (s : ResState) (component : String) : Except ReadError (List Nat × TfType) :=
  match s.index.find? (fun e => e.1 == component) with
  | none => .error (.notFound component)
  | some e => .ok (s.shapes.getD e.2 [], s.dtypes.getD e.2 .dtUint8)

/-- Example graph: a root group (address 0) holding two hard links, named
`a` and `b`, to one and the same dataset object (address 1). -/
def dupGraph : H5Graph where
  numAddr := 2
  otype := fun a => if a = 0 then .group else .dataset
  links := fun a => if a = 0 then [("a", 1), ("b", 1)] else []
  links_lt := by
    intro a p hp
    by_cases h : a = 0
    · simp [h] at hp
      rcases hp with h1 | h1 <;> simp [h1]
    · simp [h] at hp

/-- Example graph with a cycle: the root group (address 0) links to group 1,
whose children are a link `self` back to group 1 itself and a dataset `d`
(address 2). -/
def cycleGraph : H5Graph where
  numAddr := 3
  otype := fun a => if a = 0 then .group else if a = 1 then .group else .dataset
  links := fun a =>
    if a = 0 then [("g", 1)] else if a = 1 then [("self", 1), ("d", 2)] else []
  links_lt := by
    intro a p hp
    by_cases h : a = 0
    · simp [h] at hp; simp [hp]
    · by_cases h1 : a = 1
      · simp [h, h1] at hp
        rcases hp with h2 | h2 <;> simp [h2]
      · simp [h, h1] at hp

/-! Theorems.  Helper lemmas about the walker first. -/

theorem groupsFind_eq_none (gs : List (Nat × String)) (a : Nat) :
    groupsFind gs a = none ↔ a ∉ gs.map Prod.fst := by
  simp [groupsFind, List.find?_eq_none, List.mem_map]
  aesop

theorem groupsFind_isSome (gs : List (Nat × String)) (a : Nat) :
    (groupsFind gs a).isSome = true ↔ a ∈ gs.map Prod.fst := by
  rw [← Option.ne_none_iff_isSome, Ne, groupsFind_eq_none, not_not]

theorem iterLink_groups_mono (g : H5Graph)
    (descend : List (String × Nat) → WalkState → WalkState)
    (hd : ∀ l s, ∃ t, (descend l s).groups = s.groups ++ t)
    (name : String) (addr : Nat) (s : WalkState) :
    ∃ t, (iterLink g descend name addr s).groups = s.groups ++ t := by
  cases hot : g.otype addr with
  | group =>
    by_cases hseen : (groupsFind s.groups addr).isSome = true
    · exact ⟨[], by simp [iterLink, hot, hseen]⟩
    · obtain ⟨t, ht⟩ := hd (g.links addr)
        { s with
            groups := s.groups ++ [(addr, (groupsFind s.groups s.parent).getD "" ++ "/" ++ name)],
            parent := addr }
      refine ⟨(addr, (groupsFind s.groups s.parent).getD "" ++ "/" ++ name) :: t, ?_⟩
      simp [iterLink, hot, hseen, ht]
  | dataset => exact ⟨[], by simp [iterLink, hot]⟩
  | namedDatatype => exact ⟨[], by simp [iterLink, hot]⟩
  | other => exact ⟨[], by simp [iterLink, hot]⟩

theorem iterList_groups_mono (g : H5Graph)
    (descend : List (String × Nat) → WalkState → WalkState)
    (hd : ∀ l s, ∃ t, (descend l s).groups = s.groups ++ t) :
    ∀ (l : List (String × Nat)) (s : WalkState),
      ∃ t, (iterList g descend l s).groups = s.groups ++ t := by
  intro l
  induction l with
  | nil => intro s; exact ⟨[], by simp [iterList]⟩
  | cons p rest ih =>
    intro s
    obtain ⟨t1, ht1⟩ := iterLink_groups_mono g descend hd p.1 p.2 s
    obtain ⟨t2, ht2⟩ := ih (iterLink g descend p.1 p.2 s)
    exact ⟨t1 ++ t2, by simp [iterList, ht2, ht1]⟩

theorem iterFuel_groups_mono (g : H5Graph) :
    ∀ (fuel : Nat) (l : List (String × Nat)) (s : WalkState),
      ∃ t, (iterFuel g fuel l s).groups = s.groups ++ t := by
  intro fuel
  induction fuel with
  | zero =>
    exact iterList_groups_mono g _ (fun l s => ⟨[], by simp⟩)
  | succ f ih =>
    exact iterList_groups_mono g _ ih

theorem isSome_false_not_mem {gs : List (Nat × String)} {a : Nat}
    (h : ¬(groupsFind gs a).isSome = true) : a ∉ gs.map Prod.fst := by
  have hnone : groupsFind gs a = none := by
    cases hg : groupsFind gs a with
    | none => rfl
    | some v => simp [hg] at h
  exact (groupsFind_eq_none gs a).1 hnone

theorem GoodState_push (g : H5Graph) (s : WalkState) (hs : GoodState g s)
    (addr : Nat) (path : String) (haddr : addr < g.numAddr)
    (hnot : addr ∉ s.groups.map Prod.fst) :
    GoodState g { s with groups := s.groups ++ [(addr, path)], parent := addr } := by
  obtain ⟨h1, h2⟩ := hs
  constructor
  · simp only [List.map_append, List.map_cons, List.map_nil, List.nodup_append]
    refine ⟨h1, List.nodup_singleton addr, ?_⟩
    intro x hx hx1
    simp at hx1
    subst hx1
    exact hnot hx
  · intro e he
    rcases List.mem_append.1 he with h | h
    · exact h2 e h
    · simp at h
      rw [show e.1 = addr from by rw [h]]
      exact haddr

theorem iterLink_good (g : H5Graph)
    (descend : List (String × Nat) → WalkState → WalkState)
    (hd : ∀ l s, LinksLt g l → GoodState g s → GoodState g (descend l s))
    (name : String) (addr : Nat) (s : WalkState)
    (haddr : addr < g.numAddr) (hs : GoodState g s) :
    GoodState g (iterLink g descend name addr s) := by
  cases hot : g.otype addr with
  | group =>
    by_cases hseen : (groupsFind s.groups addr).isSome = true
    · simpa [iterLink, hot, hseen] using hs
    · have hgood1 := GoodState_push g s hs addr
        ((groupsFind s.groups s.parent).getD "" ++ "/" ++ name) haddr
        (isSome_false_not_mem hseen)
      have hlt : LinksLt g (g.links addr) := fun p hp => g.links_lt addr p hp
      have hgood2 := hd (g.links addr) _ hlt hgood1
      simp only [iterLink, hot, hseen]
      simp only [GoodState] at hgood2 ⊢
      simpa using hgood2
  | dataset => simpa [iterLink, hot, GoodState] using hs
  | namedDatatype => simpa [iterLink, hot] using hs
  | other => simpa [iterLink, hot] using hs

theorem iterList_good (g : H5Graph)
    (descend : List (String × Nat) → WalkState → WalkState)
    (hd : ∀ l s, LinksLt g l → GoodState g s → GoodState g (descend l s)) :
    ∀ (l : List (String × Nat)) (s : WalkState),
      LinksLt g l → GoodState g s → GoodState g (iterList g descend l s) := by
  intro l
  induction l with
  | nil => intro s _ hs; simpa [iterList] using hs
  | cons p rest ih =>
    intro s hl hs
    have hp : p.2 < g.numAddr := hl p (by simp)
    have h1 := iterLink_good g descend hd p.1 p.2 s hp hs
    have hl2 : LinksLt g rest := fun q hq => hl q (List.mem_cons_of_mem _ hq)
    simpa [iterList] using ih _ hl2 h1

theorem iterFuel_good (g : H5Graph) :
    ∀ (fuel : Nat) (l : List (String × Nat)) (s : WalkState),
      LinksLt g l → GoodState g s → GoodState g (iterFuel g fuel l s) := by
  intro fuel
  induction fuel with
  | zero => exact iterList_good g _ (fun l s _ hs => hs)
  | succ f ih => exact iterList_good g _ ih

theorem keys_full (n : Nat) (keys : List Nat) (hn : keys.Nodup)
    (hlt : ∀ k ∈ keys, k < n) (hlen : n ≤ keys.length) (a : Nat) (ha : a < n) :
    a ∈ keys := by
  have hsub : keys.toFinset ⊆ Finset.range n := by
    intro x hx
    rw [List.mem_toFinset] at hx
    exact Finset.mem_range.2 (hlt x hx)
  have hcard : (Finset.range n).card ≤ keys.toFinset.card := by
    rw [List.toFinset_card_of_nodup hn, Finset.card_range]
    exact hlen
  have heq := Finset.eq_of_subset_of_card_le hsub hcard
  have : a ∈ keys.toFinset := by
    rw [heq]
    exact Finset.mem_range.2 ha
  exact List.mem_toFinset.1 this

theorem iterFuel_stable (g : H5Graph) :
    ∀ (f : Nat) (l : List (String × Nat)) (s : WalkState),
      GoodState g s → LinksLt g l → g.numAddr ≤ f + s.groups.length →
      iterFuel g (f + 1) l s = iterFuel g f l s := by
  intro f
  induction f with
  | zero =>
    intro l
    induction l with
    | nil => intro s _ _ _; simp [iterFuel, iterList]
    | cons p rest ih =>
      intro s hs hl hfull
      obtain ⟨name, addr⟩ := p
      have haddr : addr < g.numAddr := hl (name, addr) (by simp)
      have hlink : iterLink g (iterFuel g 0) name addr s =
          iterLink g (fun _ s => s) name addr s := by
        cases hot : g.otype addr with
        | group =>
          have hseen : (groupsFind s.groups addr).isSome = true := by
            rw [groupsFind_isSome]
            refine keys_full g.numAddr _ hs.1 ?_ ?_ addr haddr
            · intro k hk
              obtain ⟨e, he, hek⟩ := List.mem_map.1 hk
              rw [← hek]
              exact hs.2 e he
            · simpa using hfull
          simp [iterLink, hot, hseen]
        | dataset => simp [iterLink, hot]
        | namedDatatype => simp [iterLink, hot]
        | other => simp [iterLink, hot]
      have hgood2 : GoodState g (iterLink g (fun _ s => s) name addr s) :=
        iterLink_good g _ (fun _ _ _ hs => hs) name addr s haddr hs
      have hlen2 : g.numAddr ≤ 0 + (iterLink g (fun _ s => s) name addr s).groups.length := by
        obtain ⟨t, ht⟩ := iterLink_groups_mono g (fun _ s => s) (fun l s => ⟨[], by simp⟩) name addr s
        rw [ht]
        simp at hfull ⊢
        omega
      have hrest : LinksLt g rest := fun q hq => hl q (List.mem_cons_of_mem _ hq)
      show iterList g (iterFuel g 0) ((name, addr) :: rest) s =
        iterList g (fun _ s => s) ((name, addr) :: rest) s
      simp only [iterList]
      rw [hlink]
      exact ih _ hgood2 hrest hlen2
  | succ f ihf =>
    intro l
    induction l with
    | nil => intro s _ _ _; simp [iterFuel, iterList]
    | cons p rest ih =>
      intro s hs hl hfull
      obtain ⟨name, addr⟩ := p
      have haddr : addr < g.numAddr := hl (name, addr) (by simp)
      have hlink : iterLink g (iterFuel g (f + 1)) name addr s =
          iterLink g (iterFuel g f) name addr s := by
        cases hot : g.otype addr with
        | group =>
          by_cases hseen : (groupsFind s.groups addr).isSome = true
          · simp [iterLink, hot, hseen]
          · have hnot := isSome_false_not_mem hseen
            have hgood1 := GoodState_push g s hs addr
              ((groupsFind s.groups s.parent).getD "" ++ "/" ++ name) haddr hnot
            have hlt : LinksLt g (g.links addr) := fun q hq => g.links_lt addr q hq
            have hrec := ihf (g.links addr)
              { s with
                  groups := s.groups ++
                    [(addr, (groupsFind s.groups s.parent).getD "" ++ "/" ++ name)],
                  parent := addr }
              hgood1 hlt (by simp; omega)
            simp only [iterLink, hot, hseen]
            rw [hrec]
        | dataset => simp [iterLink, hot]
        | namedDatatype => simp [iterLink, hot]
        | other => simp [iterLink, hot]
      have hgood2 : GoodState g (iterLink g (iterFuel g f) name addr s) :=
        iterLink_good g _ (iterFuel_good g f) name addr s haddr hs
      have hlen2 : g.numAddr ≤ (f + 1) + (iterLink g (iterFuel g f) name addr s).groups.length := by
        obtain ⟨t, ht⟩ := iterLink_groups_mono g _ (iterFuel_groups_mono g f) name addr s
        rw [ht]
        simp at hfull ⊢
        omega
      have hrest : LinksLt g rest := fun q hq => hl q (List.mem_cons_of_mem _ hq)
      show iterList g (iterFuel g (f + 1)) ((name, addr) :: rest) s =
        iterList g (iterFuel g f) ((name, addr) :: rest) s
      simp only [iterList]
      rw [hlink]
      exact ih _ hgood2 hrest hlen2

/-- Claim C3, counterexample: in `dupGraph` the root group holds two hard
links `a` and `b` resolving to the same dataset object (address 1).  The
walk enumerates that object twice — the address-based skip applies only to
groups, so a repeated link to a *dataset* is not skipped, contrary to the
claim's "never causes that object (group or dataset) to be enumerated"
reading. -/
theorem c3_walker_dedup_counterexample :
    dupGraph.otype 1 = H5OType.dataset ∧
    dupGraph.links 0 = [("a", 1), ("b", 1)] ∧
    (walk dupGraph 0 2).datasets = ["/a", "/b"] := by
  refine ⟨rfl, rfl, ?_⟩
  decide

/-- Claim C3 (amended): a child *group* link whose address is already in the
visited map is skipped, so a second hard link to a group, or a cycle,
never causes the group to be entered again or its datasets to be
re-enumerated; the visited group addresses of a finished walk are pairwise
distinct; and the walk reaches a fixpoint as soon as the nesting budget
covers the graph's address count — it terminates on cyclic graphs.
Dataset links, however, are enumerated once per link, not once per object
address. -/
theorem c3_walker_amended (g : H5Graph) (root : Nat) (fuel : Nat)
    (descend : List (String × Nat) → WalkState → WalkState)
    (name : String) (addr : Nat) (s : WalkState)
    (hroot : root < g.numAddr) (hfuel : g.numAddr ≤ fuel + 1) :
    (g.otype addr = H5OType.group → (groupsFind s.groups addr).isSome = true →
      iterLink g descend name addr s = s) ∧
    ((walk g root fuel).groups.map Prod.fst).Nodup ∧
    walk g root (fuel + 1) = walk g root fuel := by
  have hgood0 : GoodState g (⟨[], [(root, "")], root⟩ : WalkState) := by
    constructor
    · simp
    · intro e he
      simp at he
      rw [he]
      exact hroot
  have hlinks : LinksLt g (g.links root) := fun p hp => g.links_lt root p hp
  refine ⟨?_, ?_, ?_⟩
  · intro hot hseen
    simp [iterLink, hot, hseen]
  · exact (iterFuel_good g fuel (g.links root) _ hlinks hgood0).1
  · exact iterFuel_stable g fuel (g.links root) _ hgood0 hlinks (by simp; omega)

/-- Claim C3, witness: the amended statement instantiated on the cyclic
graph `cycleGraph`, whose group 1 links back to itself: the self link is
skipped, the visited addresses are distinct, and extra nesting budget does
not change the walk. -/
theorem c3_walker_amended_witness :
    (iterLink cycleGraph (iterFuel cycleGraph 0) "self" 1
        ⟨[], [(0, ""), (1, "/g")], 1⟩ = ⟨[], [(0, ""), (1, "/g")], 1⟩) ∧
    ((walk cycleGraph 0 2).groups.map Prod.fst).Nodup ∧
    walk cycleGraph 0 3 = walk cycleGraph 0 2 := by
  have h := c3_walker_amended cycleGraph 0 2 (iterFuel cycleGraph 0) "self" 1
    ⟨[], [(0, ""), (1, "/g")], 1⟩ (by decide) (by decide)
  exact ⟨h.1 rfl (by decide), h.2.1, h.2.2⟩

/-- A descriptor is of float class exactly when it is a float type of some
width. -/
theorem getClass_eq_float_iff (t : H5T) :
    t.getClass = H5Class.float ↔ ∃ w, t = .floatType w := by
  cases t <;> simp [H5T.getClass]

/-- Claim C5: integer storage of byte width 1, 2, 4 or 8 classifies to the
matching signed or unsigned fixed-width integer type, and any other
integer width fails with the unsupported-size error; float storage of byte
width 4 classifies to `DT_FLOAT`, width 8 to `DT_DOUBLE`, and any other
float width fails with the unsupported-size error. -/
theorem c5_numeric_classification (cn : String × String) (ds : String)
    (size : Nat) (signed : Bool) (dt : TfType) :
    (classify cn ds (.intType size signed) = .ok dt ↔
      ((size = 1 ∧ dt = (if signed then .dtInt8 else .dtUint8)) ∨
       (size = 2 ∧ dt = (if signed then .dtInt16 else .dtUint16)) ∨
       (size = 4 ∧ dt = (if signed then .dtInt32 else .dtUint32)) ∨
       (size = 8 ∧ dt = (if signed then .dtInt64 else .dtUint64)))) ∧
    (classify cn ds (.intType size signed) = .error (.unsupportedIntSize ds size) ↔
      ¬(size = 1 ∨ size = 2 ∨ size = 4 ∨ size = 8)) ∧
    (classify cn ds (.floatType size) = .ok dt ↔
      ((size = 4 ∧ dt = .dtFloat) ∨ (size = 8 ∧ dt = .dtDouble))) ∧
    (classify cn ds (.floatType size) = .error (.unsupportedFloatSize ds size) ↔
      ¬(size = 4 ∨ size = 8)) := by
  cases signed <;> refine ⟨?_, ?_, ?_, ?_⟩ <;> simp only [classify] <;> split <;>
    simp_all [eq_comm]

/-- Claim C4: a compound storage type classifies to `DT_COMPLEX64` exactly
when its member list is the configured name pair (default `("r", "i")`)
over two identical 4-byte floats, to `DT_COMPLEX128` exactly for two
identical 8-byte floats, and every other compound shape is an error; a
2-member compound named `re`, `im` fails with the error naming the member
names. -/
theorem c4_compound_classification (cn : String × String) (ds : String)
    (ms : List (String × H5T)) (dt : TfType) :
    (classify cn ds (.compType ms) = .ok dt ↔
      ((dt = .dtComplex64 ∧ ms = [(cn.1, .floatType 4), (cn.2, .floatType 4)]) ∨
       (dt = .dtComplex128 ∧ ms = [(cn.1, .floatType 8), (cn.2, .floatType 8)]))) ∧
    classify ("r", "i") ds (.compType [("re", .floatType 4), ("im", .floatType 4)]) =
      .error (.unsupportedCompoundMemberNames ds "re" "im") := by
  refine ⟨?_, rfl⟩
  rcases ms with _ | ⟨⟨n0, t0⟩, ms1⟩
  · simp [classify]
  rcases ms1 with _ | ⟨⟨n1, t1⟩, ms2⟩
  · simp [classify]
  rcases ms2 with _ | ⟨m2, ms3⟩
  case cons.mk.cons.mk.cons => simp [classify]
  by_cases h0 : n0 = cn.1
  case neg => simp [classify, h0]
  subst h0
  by_cases h1 : n1 = cn.2
  case neg => simp [classify, h1]
  subst h1
  by_cases ht : t0 = t1
  case neg =>
    simp [classify, ht]
    refine ⟨?_, ?_⟩ <;>
      · rintro _ rfl hb
        exact ht hb.symm
  subst ht
  by_cases hc : t0.getClass = .float
  case neg =>
    have h4 : t0 ≠ .floatType 4 := fun h => hc (by rw [h]; rfl)
    have h8 : t0 ≠ .floatType 8 := fun h => hc (by rw [h]; rfl)
    simp [classify, hc, h4, h8]
  obtain ⟨w, rfl⟩ := (getClass_eq_float_iff t0).1 hc
  simp [classify, H5T.getSize, H5T.getClass]
  split <;> simp_all [eq_comm]

theorem strFieldNullTerm_eq_takeWhile :
    ∀ p : List Nat, strFieldNullTerm p = p.takeWhile (fun b => b != 0)
  | [] => by simp [strFieldNullTerm, nulltermLen]
  | b :: r => by
    by_cases hb : b = 0
    · simp [strFieldNullTerm, nulltermLen, hb]
    · have ih := strFieldNullTerm_eq_takeWhile r
      simp only [strFieldNullTerm, nulltermLen, hb, if_false, List.take_succ_cons,
        List.takeWhile_cons] at ih ⊢
      simp [hb, ih]

theorem takeWhile_eq_self_of_not_mem {p : List Nat} (h : 0 ∉ p) :
    p.takeWhile (fun b => b != 0) = p := by
  induction p with
  | nil => simp
  | cons b r ih =>
    have hb : b ≠ 0 := fun hb0 => h (by simp [hb0])
    have hr : 0 ∉ r := fun hr0 => h (by simp [hr0])
    simp [List.takeWhile_cons, hb, ih hr]

theorem dropLeadZeros_spec :
    ∀ q : List Nat, ∃ k, q = List.replicate k 0 ++ dropLeadZeros q ∧
      (dropLeadZeros q).head? ≠ some 0
  | [] => ⟨0, by simp [dropLeadZeros]⟩
  | b :: r => by
    by_cases hb : b = 0
    · obtain ⟨k, hk, hh⟩ := dropLeadZeros_spec r
      subst hb
      exact ⟨k + 1, by simpa [dropLeadZeros, List.replicate_succ] using hk, by simpa [dropLeadZeros] using hh⟩
    · exact ⟨0, by simp [dropLeadZeros, hb], by simp [dropLeadZeros, hb]⟩

theorem strFieldNullPad_spec (p : List Nat) :
    ∃ k, p = strFieldNullPad p ++ List.replicate k 0 ∧
      (strFieldNullPad p).getLast? ≠ some 0 := by
  obtain ⟨k, hk, hh⟩ := dropLeadZeros_spec p.reverse
  refine ⟨k, ?_, ?_⟩
  · have h2 := congrArg List.reverse hk
    simpa [List.reverse_append] using h2
  · rw [strFieldNullPad, List.getLast?_reverse]
    exact hh

/-- Claim C6: for every element of a fixed-length string dataset, the
null-terminated decode yields the bytes before the first zero byte (the
whole field when it has no zero byte), the null-padded decode trims
exactly the trailing zero bytes (zero bytes before the end are preserved,
as on the spec's `a\0b\0\0` example), and a space-padded dataset fails
with the error naming the padding mode. -/
theorem c6_fixed_string_decode (size total : Nat) (buffer : List Nat) (p : List Nat) :
    (readFixedStrings .nullterm size buffer total =
      .ok ((List.range total).map fun i =>
        (strSlice size buffer i).takeWhile (fun b => b != 0))) ∧
    (0 ∉ p → strFieldNullTerm p = p) ∧
    (readFixedStrings .nullpad size buffer total =
      .ok ((List.range total).map fun i => strFieldNullPad (strSlice size buffer i))) ∧
    (∃ k, p = strFieldNullPad p ++ List.replicate k 0 ∧
      (strFieldNullPad p).getLast? ≠ some 0) ∧
    (readFixedStrings .spacepad size buffer total =
      .error (.stringPadUnsupported 2)) ∧
    strFieldNullPad [97, 0, 98, 0, 0] = [97, 0, 98] := by
  refine ⟨?_, ?_, rfl, strFieldNullPad_spec p, rfl, by decide⟩
  · simp [readFixedStrings, strFieldNullTerm_eq_takeWhile]
  · intro h0
    rw [strFieldNullTerm_eq_takeWhile]
    exact takeWhile_eq_self_of_not_mem h0

/-- Claim C6, witness: a zero-free field decodes to the full field width,
and a concrete space-padded dataset is rejected. -/
theorem c6_fixed_string_decode_witness :
    strFieldNullTerm [97, 98] = [97, 98] ∧
    readFixedStrings .spacepad 5 [97, 98, 0, 0, 0] 1 =
      .error (.stringPadUnsupported 2) := by
  have h := c6_fixed_string_decode 5 1 [97, 98, 0, 0, 0] [97, 98]
  exact ⟨h.2.1 (by decide), h.2.2.2.2.1⟩

theorem after_takeWhile_zero :
    ∀ l : List Nat, (l[(l.takeWhile (fun b => b != 0)).length]?).getD 0 = 0
  | [] => by simp
  | b :: r => by
    by_cases hb : b = 0
    · simp [List.takeWhile_cons, hb]
    · have ih := after_takeWhile_zero r
      simpa [List.takeWhile_cons, hb] using ih

/-- Claim C7, counterexample: decoding one element of a variable-length
string (`H5T_STRING`, `isVariableStr`) dataset whose stored bytes at the
record pointer are `97, 0, 98` with recorded length 3: the `string(p)` copy
stops at the embedded zero byte and yields `[97]`, not the 3 recorded
bytes, so the claimed exact-length copy does not hold on this branch. -/
theorem c7_var_string_counterexample :
    readVarStrings [97, 0, 98] [0] = [[97]] ∧
    readVarStrings [97, 0, 98] [0] ≠ readVlenStrings [97, 0, 98] [(0, 3)] := by
  decide

/-- Claim C7 (amended): for `H5T_VLEN` datasets the decoder reads
`(pointer, length)` records and copies exactly `length` bytes from the
pointer — byte `j` of the output is memory byte `pointer + j`, embedded
zero bytes included; for variable-length `H5T_STRING` datasets the buffer
holds bare pointers and each element is copied up to the first zero byte:
the output is a zero-free prefix of the memory after the pointer and the
byte that follows it (when any) is zero. -/
theorem c7_vlen_string_decode (mem : List Nat) (r : Nat × Nat) (j p : Nat) :
    ((vlenElem mem r)[j]? = if j < r.2 then mem[r.1 + j]? else none) ∧
    ((vlenElem mem r).length = min r.2 (mem.length - r.1)) ∧
    (∃ t, mem.drop p = varStrElem mem p ++ t) ∧
    ((varStrElem mem p).all (fun b => b != 0) = true) ∧
    (((mem.drop p)[(varStrElem mem p).length]?).getD 0 = 0) ∧
    readVlenStrings mem [r] = [vlenElem mem r] ∧
    readVarStrings mem [p] = [varStrElem mem p] := by
  refine ⟨?_, ?_, ?_, ?_, ?_, rfl, rfl⟩
  · unfold vlenElem
    by_cases hj : j < r.2
    · simp [hj, List.getElem?_take, List.getElem?_drop]
    · simp [hj, List.getElem?_take]
  · simp [vlenElem]
  · exact ⟨(mem.drop p).dropWhile (fun b => b != 0),
      (List.takeWhile_append_dropWhile _ _).symm⟩
  · rw [List.all_eq_true]
    intro b hb
    simpa using List.mem_takeWhile_imp hb
  · exact after_takeWhile_zero (mem.drop p)

/-- Claim C8, counterexample: a `DataSpaceIException` raised inside the body
of `Read` (the dataspace calls are not covered by the two catch clauses)
escapes `Read` as a native exception instead of becoming an
`InvalidArgument` status. -/
theorem c8_exception_counterexample :
    readCatch "file.h5" (Except.error (H5Exception.dataSpaceIException "m")) =
      ReadOutcome.thrown (H5Exception.dataSpaceIException "m") := rfl

/-- Claim C8 (amended): `Read` translates exactly the exception types
`H5::FileIException` and `H5::DataSetIException` into `InvalidArgument`
statuses whose text carries the container file name (`filename_`, not the
dataset path) and the library diagnostic; every other container-library
exception type propagates out of `Read` uncaught, and a non-throwing body
returns normally. -/
theorem c8_exception_translation (filename m : String) :
    readCatch filename (Except.error (H5Exception.fileIException m)) =
      .status ("unable to open dataset file " ++ filename ++ ": " ++ m) ∧
    readCatch filename (Except.error (H5Exception.dataSetIException m)) =
      .status ("unable to process dataset file" ++ filename ++ ": " ++ m) ∧
    readCatch filename (Except.error (H5Exception.dataSpaceIException m)) =
      .thrown (H5Exception.dataSpaceIException m) ∧
    readCatch filename (Except.error (H5Exception.dataTypeIException m)) =
      .thrown (H5Exception.dataTypeIException m) ∧
    readCatch filename (Except.ok ()) = .ok :=
  ⟨rfl, rfl, rfl, rfl, rfl⟩

/-- When the signed value is nonnegative and below 2^64, the conversion to
`hsize_t` is just `toNat`. -/
theorem hsizeCast_of_nonneg {x : Int} (h0 : 0 ≤ x) (h1 : x < 2 ^ 64) :
    hsizeCast x = x.toNat := by
  unfold hsizeCast
  rw [Int.emod_eq_of_lt h0 (by exact_mod_cast h1)]

theorem hyperslabLoop_error :
    ∀ (k : Nat) (ds : List Nat) (sts szs : List Int),
      ds.length = szs.length → sts.length = szs.length →
      (∀ x ∈ sts, 0 ≤ x ∧ x < 2 ^ 63) → (∀ x ∈ szs, 0 ≤ x ∧ x < 2 ^ 63) →
      (∃ i, i < szs.length ∧
        ((ds.getD i 0 : Int) < sts.getD i 0 ∨
         (ds.getD i 0 : Int) < sts.getD i 0 + szs.getD i 0)) →
      ∃ j st sz d, hyperslabLoop k ds sts szs = .error (.outOfBounds j st sz d) := by
  intro k ds
  induction ds generalizing k with
  | nil =>
    intro sts szs hlen _ _ _ hex
    obtain ⟨i, hi, _⟩ := hex
    rw [← hlen] at hi
    simp at hi
  | cons d ds2 ih =>
    intro sts szs hlen1 hlen2 hst hsz hex
    rcases szs with _ | ⟨sz, szs2⟩
    · simp at hlen1
    rcases sts with _ | ⟨st, sts2⟩
    · simp at hlen2
    by_cases hv : hsizeCast st > d ∨ hsizeCast (st + sz) > d
    · exact ⟨k, st, sz, d, by simp [hyperslabLoop, hv]⟩
    · have hst0 := hst st (by simp)
      have hsz0 := hsz sz (by simp)
      have hc1 : hsizeCast st = st.toNat :=
        hsizeCast_of_nonneg hst0.1 (by have := hst0.2; omega)
      have hc2 : hsizeCast (st + sz) = (st + sz).toNat :=
        hsizeCast_of_nonneg (by omega) (by omega)
      obtain ⟨i, hi, hcond⟩ := hex
      rcases i with _ | i2
      · exfalso
        apply hv
        rw [hc1, hc2]
        simp only [List.getD_cons_zero] at hcond
        omega
      · have hex2 : ∃ i, i < szs2.length ∧
            ((ds2.getD i 0 : Int) < sts2.getD i 0 ∨
             (ds2.getD i 0 : Int) < sts2.getD i 0 + szs2.getD i 0) := by
          refine ⟨i2, ?_, ?_⟩
          · simpa using hi
          · simpa [List.getD_cons_succ] using hcond
        obtain ⟨j, st2, sz2, d2, htail⟩ := ih (k + 1) sts2 szs2
          (by simpa using hlen1) (by simpa using hlen2)
          (fun x hx => hst x (by simp [hx])) (fun x hx => hsz x (by simp [hx])) hex2
        exact ⟨j, st2, sz2, d2, by simp [hyperslabLoop, hv, htail]⟩

/-- Claim C2: a rank-0 requested shape reads the dataset in full with no
hyperslab selection; a nonzero requested rank different from the dataset
rank fails with the rank-mismatch error; and whenever some dimension has
`start[i] > dim[i]` or `start[i] + requested_shape[i] > dim[i]` (values in
the `int64` range of the op's inputs), the validation fails with an
out-of-boundary error. -/
theorem c2_read_validation (datasetDims : List Nat) (start reqShape : List Int) :
    (readSelect datasetDims start [] = .ok none) ∧
    (reqShape ≠ [] → datasetDims.length ≠ reqShape.length →
      readSelect datasetDims start reqShape =
        .error (.rankMismatch datasetDims.length reqShape.length)) ∧
    (datasetDims.length = reqShape.length → start.length = reqShape.length →
      (∀ x ∈ start, 0 ≤ x ∧ x < 2 ^ 63) →
      (∀ x ∈ reqShape, 0 ≤ x ∧ x < 2 ^ 63) →
      (∃ i, i < reqShape.length ∧
        ((datasetDims.getD i 0 : Int) < start.getD i 0 ∨
         (datasetDims.getD i 0 : Int) < start.getD i 0 + reqShape.getD i 0)) →
      ∃ j st sz d, readSelect datasetDims start reqShape =
        .error (.outOfBounds j st sz d)) := by
  refine ⟨by simp [readSelect], ?_, ?_⟩
  · intro h1 h2
    have h3 : reqShape.length ≠ 0 := by simpa using h1
    simp [readSelect, h2, h3]
  · intro hlen1 hlen2 hst hsz hex
    have h3 : reqShape.length ≠ 0 := by
      obtain ⟨i, hi, _⟩ := hex
      omega
    obtain ⟨j, st, sz, d, hloop⟩ :=
      hyperslabLoop_error 0 datasetDims start reqShape hlen1 hlen2 hst hsz hex
    refine ⟨j, st, sz, d, ?_⟩
    simp [readSelect, h3, hlen1, hloop]

/-- Claim C2, witness: on a `[10]` dataset, `start = [11]` with requested
shape `[0]` fails the bounds validation. -/
theorem c2_read_validation_witness :
    ∃ j st sz d, readSelect [10] [11] [0] = .error (.outOfBounds j st sz d) := by
  have h := c2_read_validation [10] [11] [0]
  exact h.2.2 (by decide) (by decide) (by decide) (by decide)
    ⟨0, by decide, by decide⟩

theorem map_range_getD (l : List Int) :
    (List.range l.length).map (fun i => l.getD i 0) = l := by
  apply List.ext_getElem (by simp)
  intro n h1 h2
  simp only [List.getElem_map, List.getElem_range]
  rw [List.getD_eq_getElem?_getD, List.getElem?_eq_getElem (by simpa using h1)]
  rfl

theorem buildStart_full (sts : List Int) : buildStart sts.length sts = sts :=
  map_range_getD sts

theorem buildStop_full (stp ds : List Int) (h : stp.length = ds.length) :
    buildStop ds.length stp ds = stp := by
  unfold buildStop
  rw [← h]
  apply List.ext_getElem (by simp)
  intro n h1 h2
  simp only [List.getElem_map, List.getElem_range]
  have hn : n < stp.length := by simpa using h1
  rw [if_pos hn, List.getD_eq_getElem?_getD, List.getElem?_eq_getElem hn]
  rfl

theorem readOpNormalize_getD :
    ∀ (ds sts stp : List Int) (i : Nat),
      sts.length = ds.length → stp.length = ds.length → i < ds.length →
      ((readOpNormalize ds sts stp).2.1.getD i 0 =
        (if stp.getD i 0 < 0 ∨ stp.getD i 0 > ds.getD i 0 then ds.getD i 0
         else stp.getD i 0)) ∧
      ((readOpNormalize ds sts stp).1.getD i 0 =
        (if sts.getD i 0 >
            (if stp.getD i 0 < 0 ∨ stp.getD i 0 > ds.getD i 0 then ds.getD i 0
             else stp.getD i 0)
         then
           (if stp.getD i 0 < 0 ∨ stp.getD i 0 > ds.getD i 0 then ds.getD i 0
            else stp.getD i 0)
         else sts.getD i 0)) ∧
      ((readOpNormalize ds sts stp).2.2.getD i 0 =
        (readOpNormalize ds sts stp).2.1.getD i 0 -
          (readOpNormalize ds sts stp).1.getD i 0)
  | [], _, _, i => by intro _ _ hi; simp at hi
  | d :: ds2, sts, stp, i => by
    intro hs ho hi
    rcases sts with _ | ⟨a, sts2⟩
    · simp at hs
    rcases stp with _ | ⟨o, stp2⟩
    · simp at ho
    rcases i with _ | i2
    · simp [readOpNormalize]
    · have ih := readOpNormalize_getD ds2 sts2 stp2 i2
        (by simpa using hs) (by simpa using ho) (by simpa using hi)
      simpa [readOpNormalize, List.getD_cons_succ] using ih

/-- Claim C1: for an explicit full-rank request the start and stop input
vectors pass through the fill loops unchanged; the normalization step
snaps `stop[i]` to the requested shape's dimension `i` (the dataset extent
for well-formed requests) whenever it is negative or exceeds it, then
pulls `start[i]` down to the snapped `stop[i]` whenever it exceeds it; the
allocated output shape is `stop[i] - start[i]` per dimension; and the
degenerate request `start = [8]`, `stop = [3]` on a `[10]` dataset yields
the zero-length shape `[0]` (no error — the normalization is total). -/
theorem c1_read_op_request (ds sts stp : List Int) (i : Nat)
    (hs : sts.length = ds.length) (ho : stp.length = ds.length)
    (hi : i < ds.length) :
    (buildStart ds.length sts = sts) ∧
    (buildStop ds.length stp ds = stp) ∧
    ((readOpNormalize ds sts stp).2.1.getD i 0 =
      (if stp.getD i 0 < 0 ∨ stp.getD i 0 > ds.getD i 0 then ds.getD i 0
       else stp.getD i 0)) ∧
    ((readOpNormalize ds sts stp).1.getD i 0 =
      (if sts.getD i 0 >
          (if stp.getD i 0 < 0 ∨ stp.getD i 0 > ds.getD i 0 then ds.getD i 0
           else stp.getD i 0)
       then
         (if stp.getD i 0 < 0 ∨ stp.getD i 0 > ds.getD i 0 then ds.getD i 0
          else stp.getD i 0)
       else sts.getD i 0)) ∧
    ((readOpNormalize ds sts stp).2.2.getD i 0 =
      (readOpNormalize ds sts stp).2.1.getD i 0 -
        (readOpNormalize ds sts stp).1.getD i 0) ∧
    readOpRequest [10] [8] [3] = ([3], [0]) := by
  obtain ⟨h1, h2, h3⟩ := readOpNormalize_getD ds sts stp i hs ho hi
  refine ⟨?_, buildStop_full stp ds ho, h1, h2, h3, by decide⟩
  rw [← hs]
  exact buildStart_full sts

/-- Claim C1, witness: the degenerate request `start = [8]`, `stop = [3]`
on the `[10]` shape evaluates through the theorem to the clamped start 3,
stop 3, and output shape `[0]`. -/
theorem c1_read_op_request_witness :
    (readOpNormalize [10] [8] [3]).2.1.getD 0 0 = 3 ∧
    (readOpNormalize [10] [8] [3]).1.getD 0 0 = 3 ∧
    readOpRequest [10] [8] [3] = ([3], [0]) := by
  have h := c1_read_op_request [10] [8] [3] 0 (by decide) (by decide) (by decide)
  refine ⟨?_, ?_, h.2.2.2.2.2⟩
  · rw [h.2.2.1]; decide
  · rw [h.2.2.2.1]; decide

theorem initLoop_index (cn : String × String) :
    ∀ (l : List (String × List Nat × H5T)) (s : ResState),
      (initLoop cn l s).1.index = s.index
  | [], _ => rfl
  | x :: rest, s => by
    obtain ⟨path, dims, t⟩ := x
    cases hcl : classify cn path t with
    | error e => simp [initLoop, hcl]
    | ok dt => simp [initLoop, hcl, initLoop_index cn rest _]

theorem initLoop_error_first (cn : String × String) :
    ∀ (pre : List (String × List Nat × H5T)) (p : String) (dims : List Nat)
      (t : H5T) (post : List (String × List Nat × H5T)) (s : ResState)
      (e : InitError),
      (∀ x ∈ pre, ∃ dt, classify cn x.1 x.2.2 = .ok dt) →
      classify cn p t = .error e →
      (initLoop cn (pre ++ (p, dims, t) :: post) s).2 = some e
  | [], p, dims, t, post, s, e => by
    intro _ hcl
    simp [initLoop, hcl]
  | x :: pre2, p, dims, t, post, s, e => by
    intro hok hcl
    obtain ⟨xp, xd, xt⟩ := x
    obtain ⟨dt, hdt⟩ := hok (xp, xd, xt) (by simp)
    simp only at hdt
    simp only [List.cons_append, initLoop, hdt]
    exact initLoop_error_first cn pre2 p dims t post _ e
      (fun y hy => hok y (by simp [hy])) hcl

/-- Claim C9 (amended): `Init` never consults the status returned by the
walk (`H5Literate`); it fails on an unopened container; the first
classification failure among the discovered datasets aborts `Init` with
exactly that error; and on any failing `Init` the path index stays empty,
so every metadata query answers `NotFound`. -/
theorem c9_init_all_or_nothing (cn : String × String) (f : FileDesc)
    (pre post : List (String × List Nat × H5T)) (p : String) (dims : List Nat)
    (t : H5T) (e : InitError) :
    (runInit cn { f with walkOk := true } = runInit cn { f with walkOk := false }) ∧
    (f.openOk = false → runInit cn f = (emptyRes, some (.openFailure f.filename))) ∧
    (f.openOk = true → f.datasets = pre ++ (p, dims, t) :: post →
      (∀ x ∈ pre, ∃ dt, classify cn x.1 x.2.2 = .ok dt) →
      classify cn p t = .error e →
      (runInit cn f).2 = some e) ∧
    ((runInit cn f).2.isSome = true →
      (runInit cn f).1.index = [] ∧
      ∀ comp, specQuery (runInit cn f).1 comp = .error (.notFound comp)) := by
  refine ⟨rfl, ?_, ?_, ?_⟩
  · intro hopen
    simp [runInit, hopen]
  · intro hopen hds hok hcl
    have herr := initLoop_error_first cn pre p dims t post emptyRes e hok hcl
    rcases hres : initLoop cn (pre ++ (p, dims, t) :: post) emptyRes with ⟨s1, oe⟩
    have hoe : oe = some e := by rw [← herr, hres]
    subst hoe
    simp [runInit, hopen, hds, hres]
  · intro hsome
    by_cases hopen : f.openOk = true
    · rcases hres : initLoop cn f.datasets emptyRes with ⟨s1, oe⟩
      cases oe with
      | none => simp [runInit, hopen, hres] at hsome
      | some e1 =>
        have hidx : s1.index = [] := by
          have h := initLoop_index cn f.datasets emptyRes
          rw [hres] at h
          exact h
        refine ⟨by simp [runInit, hopen, hres, hidx], ?_⟩
        intro comp
        simp [runInit, hopen, hres, specQuery, hidx]
    · have hopen2 : f.openOk = false := by simpa using hopen
      refine ⟨by simp [runInit, hopen2, emptyRes], ?_⟩
      intro comp
      simp [runInit, hopen2, specQuery, emptyRes]

/-- Claim C9, counterexample: a file whose walk reported failure
(`walkOk = false`, the nonzero `herr_t` of `H5Literate`) but whose
collected dataset list is fine: `Init` succeeds, returning no error, so
the first error encountered by the walk is not returned. -/
theorem c9_walk_error_ignored :
    (⟨"f.h5", true, false, []⟩ : FileDesc).walkOk = false ∧
    (runInit ("r", "i") ⟨"f.h5", true, false, []⟩).2 = none :=
  ⟨rfl, rfl⟩

/-- Claim C9, witness: a container holding one dataset of 3-byte integer
storage fails classification; `Init` returns that error and the index
answers `NotFound` for the dataset's own path. -/
theorem c9_init_all_or_nothing_witness :
    (runInit ("r", "i") ⟨"f.h5", true, true, [("/x", [2], .intType 3 true)]⟩).2 =
      some (.unsupportedIntSize "/x" 3) ∧
    specQuery
      (runInit ("r", "i") ⟨"f.h5", true, true, [("/x", [2], .intType 3 true)]⟩).1
      "/x" = .error (.notFound "/x") := by
  have h := c9_init_all_or_nothing ("r", "i")
    ⟨"f.h5", true, true, [("/x", [2], .intType 3 true)]⟩
    [] [] "/x" [2] (.intType 3 true) (.unsupportedIntSize "/x" 3)
  have h1 := h.2.2.1 rfl rfl (by simp) rfl
  exact ⟨h1, (h.2.2.2 (by rw [h1]; rfl)).2 "/x"⟩

/-- Claim C10: the claim asserts every access into the local `start` and
`stop` vectors of `ResourceKernel` is in bounds for every input
combination.  It is false: with requested shape `[5, 5]` (rank 2) and a
1-D stop input tensor holding `[2, 3]`, the `stop` vector is allocated
with length `stop_tensor->shape().dims() = 1` but indices 0 and 1 are
written — an out-of-bounds access.  (`start`, by contrast, is allocated
with length `shape.dims()`.) -/
theorem c10_stop_vector_out_of_bounds :
    ¬ readOpAccessesInBounds ⟨[5, 5], [0, 0], [2, 3], 1⟩ := by
  decide

end HDF5
